import Mathlib

/-!
Verification of the authorization / pagination logic layer of a
group-messaging service (`server/data/logic.js`).

The development shallowly embeds the data model and the operations of the
logic layer: entity rows become Lean structures, the backing store becomes an
explicit `Store` value threaded through each operation, Sequelize queries
become list filters/sorts, promise rejections become `Except` errors, and the
push-notification transport becomes a list of dispatched payloads returned to
the caller.  JavaScript truthiness tests on strings and numbers are modelled
exactly (empty string and `0` are falsy); a JS `TypeError` raised by touching
a property of `null` is modelled by a dedicated error value.
-/

namespace Chatty

/-! ## Cursors

`logic.js` builds an edge cursor with
`Buffer.from(message.id.toString()).toString('base64')` and decodes a cursor
argument with `Buffer.from(cursor, 'base64').toString()`; the decoded decimal
string is then compared against the integer `id` column (the database coerces
it numerically).  We model bytes as `Nat` values below 256. -/

/-- The standard base64 alphabet used by Node's `Buffer`. -/
def b64Alphabet : List Char :=
  "ABCDEFGHIJKLMNOPQRSTUVWXYZabcdefghijklmnopqrstuvwxyz0123456789+/".toList

/-- Character of a 6-bit group. -/
def b64Char (i : Nat) : Char := b64Alphabet.getD i 'A'

/-- 6-bit value of an alphabet character. -/
def b64Index (c : Char) : Nat := b64Alphabet.indexOf c

/-- Base64 encoding of a byte list (standard alphabet, `=` padding),
as performed by `Buffer.prototype.toString('base64')`. -/
def b64EncodeBytes : List Nat → List Char
  | [] => []
  | [a] => [b64Char (a / 4), b64Char (a % 4 * 16), '=', '=']
  | [a, b] => [b64Char (a / 4), b64Char (a % 4 * 16 + b / 16), b64Char (b % 16 * 4), '=']
  | a :: b :: c :: rest =>
    b64Char (a / 4) :: b64Char (a % 4 * 16 + b / 16) ::
      b64Char (b % 16 * 4 + c / 64) :: b64Char (c % 64) :: b64EncodeBytes rest

/-- Decode a stream of 6-bit groups back to bytes (a trailing group of two or
three sextets carries one or two bytes). -/
def b64DecodeSextets : List Nat → List Nat
  | [s1, s2] => [s1 * 4 + s2 / 16]
  | [s1, s2, s3] => [s1 * 4 + s2 / 16, s2 % 16 * 16 + s3 / 4]
  | s1 :: s2 :: s3 :: s4 :: rest =>
    (s1 * 4 + s2 / 16) :: (s2 % 16 * 16 + s3 / 4) :: (s3 % 4 * 64 + s4) ::
      b64DecodeSextets rest
  | _ => []

/-- Base64 decoding as performed by `Buffer.from(s, 'base64')`: padding
characters are ignored and the remaining characters are read as 6-bit
groups. -/
def b64DecodeChars (cs : List Char) : List Nat :=
  b64DecodeSextets ((cs.filter (fun c => c != '=')).map b64Index)

/-- Decimal digit byte (`'0'` is 48). -/
def digitByte (d : Nat) : Nat := 48 + d

/-- ASCII bytes of the decimal representation of `n`, prepended to `acc`;
the first argument is structural fuel (any amount above `n` is enough).
This embeds JavaScript `Number.prototype.toString()` on a non-negative
integer. -/
def natToDecBytesAux : Nat → Nat → List Nat → List Nat
  | 0, _, acc => acc
  | fuel + 1, n, acc =>
    if n < 10 then digitByte n :: acc
    else natToDecBytesAux fuel (n / 10) (digitByte (n % 10) :: acc)

/-- ASCII bytes of the decimal representation of `n`. -/
def natToDecBytes (n : Nat) : List Nat := natToDecBytesAux (n + 1) n []

/-- Numeric value of a decimal byte string (the coercion the database applies
when a decoded cursor string is compared against the integer `id` column). -/
def parseDecBytes (bs : List Nat) : Nat := bs.foldl (fun acc b => acc * 10 + (b - 48)) 0

/-- `Buffer.from(message.id.toString()).toString('base64')`. -/
def encodeCursor (n : Nat) : String := ⟨b64EncodeBytes (natToDecBytes n)⟩

/-- `Buffer.from(cursor, 'base64').toString()` followed by the numeric
coercion applied when the decoded string meets the integer `id` column. -/
def decodeCursorNat (s : String) : Nat := parseDecBytes (b64DecodeChars s.toList)

/-! ### Round-trip lemmas -/

theorem b64Char_mem_or_default (i : Nat) : b64Char i ∈ b64Alphabet ∨ b64Char i = 'A' := by
  unfold b64Char List.getD
  cases h : b64Alphabet.get? i with
  | none => right; simp [h]
  | some c =>
    left
    have := List.get?_mem h
    simpa [h] using this

theorem b64Char_ne_pad (i : Nat) : b64Char i ≠ '=' := by
  rcases b64Char_mem_or_default i with h | h
  · intro hc
    rw [hc] at h
    revert h
    decide
  · rw [h]; decide

theorem b64Index_b64Char {i : Nat} (h : i < 64) : b64Index (b64Char i) = i := by
  have : ∀ j < 64, b64Index (b64Char j) = j := by decide
  exact this i h

theorem b64_decode_encode (bs : List Nat) (hb : ∀ x ∈ bs, x < 256) :
    b64DecodeChars (b64EncodeBytes bs) = bs := by
  induction bs using b64EncodeBytes.induct with
  | case1 =>
    simp [b64EncodeBytes, b64DecodeChars, b64DecodeSextets]
  | case2 a =>
    have ha : a < 256 := hb a (by simp)
    simp only [b64EncodeBytes, b64DecodeChars, List.filter_cons, List.filter_nil]
    rw [if_pos (by simp [b64Char_ne_pad]), if_pos (by simp [b64Char_ne_pad])]
    simp only [if_neg, List.map_cons, List.map_nil]
    rw [b64Index_b64Char (by omega), b64Index_b64Char (by omega)]
    simp only [b64DecodeSextets, List.cons.injEq, and_true]
    omega
  | case3 a b =>
    have ha : a < 256 := hb a (by simp)
    have hbb : b < 256 := hb b (by simp)
    simp only [b64EncodeBytes, b64DecodeChars, List.filter_cons, List.filter_nil]
    rw [if_pos (by simp [b64Char_ne_pad]), if_pos (by simp [b64Char_ne_pad]),
      if_pos (by simp [b64Char_ne_pad])]
    simp only [if_neg, List.map_cons, List.map_nil]
    rw [b64Index_b64Char (by omega), b64Index_b64Char (by omega), b64Index_b64Char (by omega)]
    simp only [b64DecodeSextets, List.cons.injEq, and_true]
    constructor <;> omega
  | case4 a b c rest ih =>
    have ha : a < 256 := hb a (by simp)
    have hbb : b < 256 := hb b (by simp)
    have hc : c < 256 := hb c (by simp)
    have hrest : ∀ x ∈ rest, x < 256 := fun x hx => hb x (by simp [hx])
    simp only [b64EncodeBytes, b64DecodeChars, List.filter_cons]
    rw [if_pos (by simp [b64Char_ne_pad]), if_pos (by simp [b64Char_ne_pad]),
      if_pos (by simp [b64Char_ne_pad]), if_pos (by simp [b64Char_ne_pad])]
    simp only [List.map_cons]
    rw [b64Index_b64Char (by omega), b64Index_b64Char (by omega),
      b64Index_b64Char (by omega), b64Index_b64Char (by omega)]
    have hrec := ih hrest
    simp only [b64DecodeChars] at hrec
    simp only [b64DecodeSextets, hrec, List.cons.injEq]
    refine ⟨by omega, by omega, by omega, trivial⟩

theorem natToDecBytesAux_bytes_lt (fuel : Nat) :
    ∀ (n : Nat) (acc : List Nat), (∀ b ∈ acc, b < 256) →
      ∀ b ∈ natToDecBytesAux fuel n acc, b < 256 := by
  induction fuel with
  | zero => intro n acc hacc b hbmem; exact hacc b hbmem
  | succ fuel ih =>
    intro n acc hacc b hbmem
    unfold natToDecBytesAux at hbmem
    by_cases h : n < 10
    · rw [if_pos h] at hbmem
      rcases List.mem_cons.mp hbmem with heq | hmem
      · subst heq; unfold digitByte; omega
      · exact hacc b hmem
    · rw [if_neg h] at hbmem
      refine ih (n / 10) _ ?_ b hbmem
      intro b' hb'
      rcases List.mem_cons.mp hb' with heq | hmem
      · subst heq
        have : n % 10 < 10 := Nat.mod_lt _ (by omega)
        unfold digitByte; omega
      · exact hacc b' hmem

/-- Appending the decimal digits of `n` to an accumulated value `a`
(same digit order as `natToDecBytesAux`). -/
def pushDec (a n : Nat) : Nat :=
  if _h : n < 10 then a * 10 + n
  else pushDec a (n / 10) * 10 + n % 10
termination_by n
decreasing_by exact Nat.div_lt_self (by omega) (by omega)

theorem pushDec_lt (a n : Nat) (h : n < 10) : pushDec a n = a * 10 + n := by
  unfold pushDec
  rw [dif_pos h]

theorem pushDec_ge (a n : Nat) (h : ¬n < 10) :
    pushDec a n = pushDec a (n / 10) * 10 + n % 10 := by
  conv_lhs => unfold pushDec
  rw [dif_neg h]

theorem foldl_natToDecBytesAux (fuel : Nat) :
    ∀ (n : Nat), n < fuel → ∀ (acc : List Nat) (a : Nat),
      (natToDecBytesAux fuel n acc).foldl (fun s b => s * 10 + (b - 48)) a
        = acc.foldl (fun s b => s * 10 + (b - 48)) (pushDec a n) := by
  induction fuel with
  | zero => intro n hn; omega
  | succ fuel ih =>
    intro n hn acc a
    unfold natToDecBytesAux
    by_cases h : n < 10
    · rw [if_pos h, pushDec_lt a n h]
      simp [digitByte]
    · rw [if_neg h]
      have hdiv : n / 10 < fuel := by
        have h1 : n / 10 < n := Nat.div_lt_self (by omega) (by omega)
        omega
      rw [ih (n / 10) hdiv _ a, pushDec_ge a n h]
      simp [digitByte]

theorem pushDec_zero (n : Nat) : pushDec 0 n = n := by
  induction n using pushDec.induct 0 with
  | case1 n h =>
    rw [pushDec_lt 0 n h]
    omega
  | case2 n h ih =>
    rw [pushDec_ge 0 n h, ih]
    omega

theorem parseDecBytes_natToDecBytes (n : Nat) : parseDecBytes (natToDecBytes n) = n := by
  unfold parseDecBytes natToDecBytes
  rw [foldl_natToDecBytesAux (n + 1) n (by omega) [] 0]
  simp [pushDec_zero]

theorem decodeCursorNat_encodeCursor (n : Nat) : decodeCursorNat (encodeCursor n) = n := by
  unfold decodeCursorNat encodeCursor
  have h1 : (String.mk (b64EncodeBytes (natToDecBytes n))).toList
      = b64EncodeBytes (natToDecBytes n) := rfl
  rw [h1, b64_decode_encode (natToDecBytes n) (natToDecBytesAux_bytes_lt (n + 1) n [] (by simp)),
    parseDecBytes_natToDecBytes]


/-! ## Data model

Entity rows as the logic layer sees them.  Asset storage keys are opaque
(modelled as `Nat`); `registrationId`, `avatar` and `icon` are nullable. -/

structure User where
  id : Nat
  username : String
  email : String
  registrationId : Option String
  badgeCount : Nat
  avatar : Option Nat
  jwt : String
deriving DecidableEq

structure Group where
  id : Nat
  name : String
  icon : Option Nat
deriving DecidableEq

structure Message where
  id : Nat
  text : String
  userId : Nat
  groupId : Nat
  createdAt : Nat
deriving DecidableEq

/-! ## JavaScript truthiness helpers -/

/-- Truthiness of a possibly-absent string (`undefined`/`null` and the empty
string are falsy). -/
def strTruthy : Option String → Bool
  | none => false
  | some s => !s.data.isEmpty

/-- Truthiness of a possibly-absent non-negative number (`undefined`/`null`
and `0` are falsy). -/
def natTruthy : Option Nat → Bool
  | none => false
  | some n => n != 0

/-- JavaScript `a || b` on possibly-absent numbers. -/
def jsOrNat (a b : Option Nat) : Option Nat :=
  if natTruthy a then a else b

/-- JavaScript `n < o` where `o` may be `undefined` (comparison with
`undefined` is false). -/
def jsLtOpt (n : Nat) (o : Option Nat) : Bool :=
  match o with
  | none => false
  | some k => decide (n < k)

/-! ## Message feed paginator (`groupLogic.messages`) -/

/-- Pagination arguments (`messageConnection`). -/
structure MessageConnection where
  first : Option Nat := none
  last : Option Nat := none
  before : Option String := none
  after : Option String := none

/-- The `where.id` range constraint built by `groupLogic.messages`. -/
inductive IdCond where
  | noCond : IdCond
  | gtCond (n : Nat) : IdCond
  | ltCond (n : Nat) : IdCond
deriving DecidableEq

def idMatches : IdCond → Nat → Bool
  | .noCond, _ => true
  | .gtCond n, i => decide (n < i)
  | .ltCond n, i => decide (i < n)

/-- `where.id` after the two sequential truthiness-guarded assignments of
`logic.js` (a truthy `after` overwrites a truthy `before`). -/
def buildIdCond (mc : MessageConnection) : IdCond :=
  if strTruthy mc.after then .ltCond (decodeCursorNat (mc.after.getD ""))
  else if strTruthy mc.before then .gtCond (decodeCursorNat (mc.before.getD ""))
  else .noCond

/-- The full `where` clause of the page query, applied to one row. -/
def pageWhere (g : Group) (mc : MessageConnection) (m : Message) : Bool :=
  m.groupId == g.id && idMatches (buildIdCond mc) m.id

/-- `ORDER BY id DESC`. -/
def msgGe (a b : Message) : Prop := b.id ≤ a.id

instance : DecidableRel msgGe := fun a b => decidable_of_iff (b.id ≤ a.id) Iff.rfl

instance : IsTotal Message msgGe := ⟨fun a b => Nat.le_total b.id a.id⟩

instance : IsTrans Message msgGe := ⟨fun _ _ _ h1 h2 => Nat.le_trans h2 h1⟩

def sortMsgsDesc (l : List Message) : List Message := List.insertionSort msgGe l

/-- Sequelize `limit`: `undefined` means no limit. -/
def applyLimit (lim : Option Nat) (l : List Message) : List Message :=
  match lim with
  | none => l
  | some k => l.take k

/-- The rows returned by `Message.findAll({ where, order: id DESC, limit: first || last })`. -/
def pageMsgs (db : List Message) (g : Group) (mc : MessageConnection) : List Message :=
  applyLimit (jsOrNat mc.first mc.last) (sortMsgsDesc (db.filter (pageWhere g mc)))

/-- `pageInfo.hasNextPage`.  `none` models the `TypeError` thrown by
`messages[messages.length - 1].id` when the returned page is empty and the
short-page test did not fire. -/
def hasNextPageQ (db : List Message) (g : Group) (mc : MessageConnection) : Option Bool :=
  if jsLtOpt (pageMsgs db g mc).length (jsOrNat mc.last mc.first) then some false
  else
    match (pageMsgs db g mc).getLast? with
    | none => none
    | some lastM =>
      some (db.any (fun m => m.groupId == g.id &&
        (if strTruthy mc.before then decide (lastM.id < m.id) else decide (m.id < lastM.id))))

/-- `pageInfo.hasPreviousPage`: re-query with the recorded `where.id`. -/
def hasPrevPageQ (db : List Message) (g : Group) (mc : MessageConnection) : Bool :=
  db.any (fun m => pageWhere g mc m)

structure Edge where
  cursor : String
  node : Message
deriving DecidableEq

structure Page where
  edges : List Edge
  hasNextPage : Option Bool
  hasPreviousPage : Bool
deriving DecidableEq

/-- `groupLogic.messages`. -/
def pageMessages (db : List Message) (g : Group) (mc : MessageConnection) : Page :=
  { edges := (pageMsgs db g mc).map (fun m => { cursor := encodeCursor m.id, node := m }),
    hasNextPage := hasNextPageQ db g mc,
    hasPreviousPage := hasPrevPageQ db g mc }

/-! ### Paginator lemmas -/

theorem mem_pageMsgs {db : List Message} {g : Group} {mc : MessageConnection} {m : Message}
    (h : m ∈ pageMsgs db g mc) : m ∈ db ∧ pageWhere g mc m = true := by
  unfold pageMsgs at h
  have h1 : m ∈ sortMsgsDesc (db.filter (pageWhere g mc)) := by
    unfold applyLimit at h
    cases hj : jsOrNat mc.first mc.last with
    | none => rw [hj] at h; exact h
    | some k => rw [hj] at h; exact List.mem_of_mem_take h
  have h2 : m ∈ db.filter (pageWhere g mc) :=
    (List.perm_insertionSort msgGe _).subset h1
  exact ⟨List.mem_of_mem_filter h2, List.of_mem_filter h2⟩

theorem sorted_pageMsgs (db : List Message) (g : Group) (mc : MessageConnection) :
    List.Sorted msgGe (pageMsgs db g mc) := by
  unfold pageMsgs
  have hs : List.Sorted msgGe (sortMsgsDesc (db.filter (pageWhere g mc))) :=
    List.sorted_insertionSort msgGe _
  unfold applyLimit
  cases jsOrNat mc.first mc.last with
  | none => exact hs
  | some k => exact hs.sublist (List.take_sublist _ _)

theorem length_pageMsgs_le (db : List Message) (g : Group) (mc : MessageConnection) (k : Nat)
    (hk : jsOrNat mc.first mc.last = some k) : (pageMsgs db g mc).length ≤ k := by
  unfold pageMsgs applyLimit
  rw [hk]
  exact (List.length_take _ _).trans_le (Nat.min_le_left _ _)

theorem getLast?_map_list {α β : Type} (f : α → β) :
    ∀ l : List α, (l.map f).getLast? = l.getLast?.map f := by
  intro l
  induction l with
  | nil => rfl
  | cons a l ih =>
    cases l with
    | nil => rfl
    | cons b t =>
      simp only [List.map_cons] at ih ⊢
      rw [List.getLast?_cons_cons, List.getLast?_cons_cons, ih]

/-! ## Claim C1: cursor round-trip -/

/-- **C1.** Cursor encoding round-trips: for every non-negative integer id,
decoding the cursor produced by encoding that id (base64 of the decimal id)
yields the original id.  `encodeCursor` is the edge-cursor construction of
`groupLogic.messages` and `decodeCursorNat` is its cursor-argument decoding
(including the numeric coercion applied against the `id` column). -/
theorem c1_cursor_roundtrip (n : Nat) : decodeCursorNat (encodeCursor n) = n :=
  decodeCursorNat_encodeCursor n

/-- Concrete check of `c1_cursor_roundtrip` at id 5 (its statement has the
universally quantified id instantiated). -/
theorem c1_cursor_roundtrip_witness : decodeCursorNat (encodeCursor 5) = 5 :=
  c1_cursor_roundtrip 5

/-! ## Claim C2: page query semantics -/

/-- **C2 (amended).** `pageMessages` returns messages of the queried group,
newest-first (descending by id), limited to `first || last`; returned ids
satisfy `id > decoded(before)` when a `before` cursor is supplied *and no
`after` cursor is supplied* (a supplied `after` overwrites the `before`
constraint), satisfy `id < decoded(after)` whenever an `after` cursor is
supplied, and with neither cursor the page is exactly the unconstrained
group feed (no id constraint). -/
theorem c2_pageMessages_spec (db : List Message) (g : Group) (mc : MessageConnection) :
    (∀ e ∈ (pageMessages db g mc).edges, e.node ∈ db ∧ e.node.groupId = g.id)
    ∧ List.Sorted msgGe ((pageMessages db g mc).edges.map (fun e => e.node))
    ∧ (∀ k, jsOrNat mc.first mc.last = some k → (pageMessages db g mc).edges.length ≤ k)
    ∧ (strTruthy mc.before = true → strTruthy mc.after = false →
        ∀ e ∈ (pageMessages db g mc).edges,
          decodeCursorNat (mc.before.getD "") < e.node.id)
    ∧ (strTruthy mc.after = true →
        ∀ e ∈ (pageMessages db g mc).edges, e.node.id < decodeCursorNat (mc.after.getD ""))
    ∧ (strTruthy mc.before = false → strTruthy mc.after = false →
        (pageMessages db g mc).edges.map (fun e => e.node)
          = applyLimit (jsOrNat mc.first mc.last)
              (sortMsgsDesc (db.filter (fun m => m.groupId == g.id)))) := by
  have hmapgen : ∀ l : List Message,
      (l.map (fun m => ({ cursor := encodeCursor m.id, node := m } : Edge))).map
        (fun e => e.node) = l := by
    intro l
    induction l with
    | nil => rfl
    | cons a t ih => simp only [List.map_cons, ih]
  have hmap : (pageMessages db g mc).edges.map (fun e => e.node) = pageMsgs db g mc :=
    hmapgen (pageMsgs db g mc)
  refine ⟨?_, ?_, ?_, ?_, ?_, ?_⟩
  · intro e he
    simp only [pageMessages, List.mem_map] at he
    obtain ⟨m, hm, rfl⟩ := he
    obtain ⟨hmdb, hw⟩ := mem_pageMsgs hm
    rw [pageWhere, Bool.and_eq_true] at hw
    exact ⟨hmdb, by simpa using hw.1⟩
  · rw [hmap]; exact sorted_pageMsgs db g mc
  · intro k hk
    have : (pageMessages db g mc).edges.length = (pageMsgs db g mc).length := by
      simp [pageMessages]
    rw [this]
    exact length_pageMsgs_le db g mc k hk
  · intro hb ha e he
    simp only [pageMessages, List.mem_map] at he
    obtain ⟨m, hm, rfl⟩ := he
    obtain ⟨_, hw⟩ := mem_pageMsgs hm
    rw [pageWhere, Bool.and_eq_true] at hw
    have hid := hw.2
    rw [buildIdCond, ha, if_neg (by simp), hb, if_pos rfl] at hid
    exact of_decide_eq_true hid
  · intro ha e he
    simp only [pageMessages, List.mem_map] at he
    obtain ⟨m, hm, rfl⟩ := he
    obtain ⟨_, hw⟩ := mem_pageMsgs hm
    rw [pageWhere, Bool.and_eq_true] at hw
    have hid := hw.2
    rw [buildIdCond, ha, if_pos rfl] at hid
    exact of_decide_eq_true hid
  · intro hb ha
    rw [hmap]
    unfold pageMsgs
    congr 1
    congr 1
    apply List.filter_congr
    intro m _
    rw [pageWhere, buildIdCond, ha, if_neg (by simp), hb, if_neg (by simp), idMatches,
      Bool.and_true]

/-- Concrete check of `c2_pageMessages_spec`: with only a `before` cursor the
returned ids exceed the decoded cursor, and with only an `after` cursor they
stay below it. -/
theorem c2_pageMessages_spec_witness :
    (∀ e ∈ (pageMessages [⟨1, "a", 1, 1, 0⟩, ⟨3, "c", 1, 1, 0⟩] ⟨1, "g", none⟩
        { first := some 2, before := some "MQ==" }).edges,
      decodeCursorNat "MQ==" < e.node.id)
    ∧ (∀ e ∈ (pageMessages [⟨1, "a", 1, 1, 0⟩, ⟨3, "c", 1, 1, 0⟩] ⟨1, "g", none⟩
        { first := some 2, after := some "Mw==" }).edges,
      e.node.id < decodeCursorNat "Mw==") := by
  constructor
  · exact (c2_pageMessages_spec [⟨1, "a", 1, 1, 0⟩, ⟨3, "c", 1, 1, 0⟩] ⟨1, "g", none⟩
      { first := some 2, before := some "MQ==" }).2.2.2.1 (by decide) rfl
  · exact (c2_pageMessages_spec [⟨1, "a", 1, 1, 0⟩, ⟨3, "c", 1, 1, 0⟩] ⟨1, "g", none⟩
      { first := some 2, after := some "Mw==" }).2.2.2.2.1 (by decide)

/-- **C2 refuted as stated**: when both cursors are supplied the `after`
assignment overwrites the `before` constraint, so a returned id need not
exceed `decoded(before)`.  Here `before = encode 5 = "NQ=="`,
`after = encode 10 = "MTA="`, and the single returned message has id 3. -/
theorem c2_counterexample :
    ¬ (∀ e ∈ (pageMessages [⟨3, "hi", 1, 1, 0⟩] ⟨1, "g", none⟩
          { first := some 1, before := some "NQ==", after := some "MTA=" }).edges,
        decodeCursorNat (some "NQ==" |>.getD "") < e.node.id) := by
  decide

/-! ## Claim C3: `hasNextPage` -/

/-- **C3 (amended).** With the short-page bound read the way the code reads
it (`last || first`, written `jsOrNat mc.last mc.first`; it coincides with
the requested page size whenever only one of `first`/`last` is supplied):
a page shorter than the bound reports `hasNextPage = false` without a
re-query, and a non-empty page exactly at the bound reports `true` iff some
message of the same group lies past the last returned id, compared with the
`before`-branch polarity (`id >`) when `before` was supplied and the
`after`-branch polarity (`id <`) otherwise. -/
theorem c3_hasNextPage_spec (db : List Message) (g : Group) (mc : MessageConnection) (k : Nat)
    (hk : jsOrNat mc.last mc.first = some k) :
    ((pageMessages db g mc).edges.length < k →
      (pageMessages db g mc).hasNextPage = some false)
    ∧ (∀ lastE, (pageMessages db g mc).edges.length = k → 0 < k →
        (pageMessages db g mc).edges.getLast? = some lastE →
        ((pageMessages db g mc).hasNextPage = some true ↔
          ∃ m ∈ db, m.groupId = g.id ∧
            (if strTruthy mc.before then lastE.node.id < m.id else m.id < lastE.node.id))) := by
  have hlen : (pageMessages db g mc).edges.length = (pageMsgs db g mc).length := by
    simp [pageMessages]
  constructor
  · intro hshort
    rw [hlen] at hshort
    show hasNextPageQ db g mc = some false
    unfold hasNextPageQ
    rw [hk]
    simp [jsLtOpt, hshort]
  · intro lastE hfull hpos hlast
    rw [hlen] at hfull
    have hedges : (pageMessages db g mc).edges = (pageMsgs db g mc).map
        (fun m => ({ cursor := encodeCursor m.id, node := m } : Edge)) := rfl
    rw [hedges, getLast?_map_list] at hlast
    cases hpm : (pageMsgs db g mc).getLast? with
    | none => rw [hpm] at hlast; simp at hlast
    | some lastM =>
      rw [hpm] at hlast
      simp only [Option.map_some'] at hlast
      have hnode : lastE.node = lastM := by
        cases hlast
        rfl
      show hasNextPageQ db g mc = some true ↔ _
      unfold hasNextPageQ
      rw [hk]
      have hnotlt : jsLtOpt (pageMsgs db g mc).length (some k) = false := by
        simp [jsLtOpt, hfull]
      rw [hnotlt, hpm, hnode]
      cases hb : strTruthy mc.before <;>
        simp [hb, List.any_eq_true, Bool.and_eq_true, decide_eq_true_iff, beq_iff_eq]

/-- Concrete check of `c3_hasNextPage_spec`: a full first-page of 2 over a
3-message group reports `hasNextPage = true`. -/
theorem c3_hasNextPage_spec_witness :
    (pageMessages [⟨1, "a", 1, 1, 0⟩, ⟨2, "b", 1, 1, 0⟩, ⟨3, "c", 1, 1, 0⟩] ⟨1, "g", none⟩
      { first := some 2 }).hasNextPage = some true := by
  have h := (c3_hasNextPage_spec [⟨1, "a", 1, 1, 0⟩, ⟨2, "b", 1, 1, 0⟩, ⟨3, "c", 1, 1, 0⟩]
      ⟨1, "g", none⟩ { first := some 2 } 2 (by decide)).2
      ⟨encodeCursor 2, ⟨2, "b", 1, 1, 0⟩⟩ (by decide) (by decide) (by decide)
  exact h.mpr (by decide)

/-- **C3 refuted as stated**: with `first = 2` and `last = 5` supplied
together, the page query is limited by `first || last = 2` — so the page of
length 2 is exactly full at the requested size and one more qualifying
message (id 1, below the last returned id 2) exists — yet the code compares
the count against `last || first = 5` and reports `hasNextPage = false`
without the promised re-query. -/
theorem c3_counterexample :
    jsOrNat (some 2) (some 5) = some 2
    ∧ (pageMessages [⟨1, "a", 1, 1, 0⟩, ⟨2, "b", 1, 1, 0⟩, ⟨3, "c", 1, 1, 0⟩] ⟨1, "g", none⟩
        { first := some 2, last := some 5 }).edges.length = 2
    ∧ (∃ m ∈ ([⟨1, "a", 1, 1, 0⟩, ⟨2, "b", 1, 1, 0⟩, ⟨3, "c", 1, 1, 0⟩] : List Message),
        m.groupId = 1 ∧ m.id < 2)
    ∧ (pageMessages [⟨1, "a", 1, 1, 0⟩, ⟨2, "b", 1, 1, 0⟩, ⟨3, "c", 1, 1, 0⟩] ⟨1, "g", none⟩
        { first := some 2, last := some 5 }).hasNextPage = some false := by
  decide

/-! ## Backing store and effects

The Sequelize-backed entity store, plus logs of asset-storage calls
(`uploadFile` keys are generated freshly; we model the uuid generator as the
`nextAssetKey` counter).  `now` feeds `createdAt` of newly created rows. -/

structure Store where
  users : List User
  groups : List Group
  messages : List Message
  members : List (Nat × Nat)
  friends : List (Nat × Nat)
  lastReads : List (Nat × Nat)
  nextMessageId : Nat
  nextAssetKey : Nat
  uploads : List Nat
  deletes : List Nat
  now : Nat
deriving DecidableEq

/-- Promise rejections and thrown exceptions.  `noGroupFound` is the
`'No group found'` rejection `leaveGroup` constructs (and then abandons);
`typeError` is the JS `TypeError` raised by touching a property of `null`. -/
inductive JsErr where
  | unauthorized : JsErr
  | noGroupFound : JsErr
  | typeError : JsErr
deriving DecidableEq

deriving instance DecidableEq for Except

/-- A push-notification payload handed to `sendNotification` (`toToken` is
its `to` field, the recipient's registration id). -/
structure Notification where
  toToken : String
  title : String
  body : String
  sound : String
  badge : Nat
  clickAction : String
  dataType : String
  dataGroupId : Nat
  dataGroupName : String
  priority : String
deriving DecidableEq

/-- `getAuthenticatedUser(ctx)`: rejects `'Unauthorized'` when the context
resolves no user. -/
def getAuthenticatedUser (ctxUser : Option User) : Except JsErr User :=
  match ctxUser with
  | none => .error .unauthorized
  | some u => .ok u

/-- Membership join table check. -/
def memberB (st : Store) (uid gid : Nat) : Bool := st.members.contains (uid, gid)

/-- `user.getGroups({ where: { id: gid } })`. -/
def userGroupsWithId (st : Store) (uid gid : Nat) : List Group :=
  st.groups.filter (fun g => g.id == gid && memberB st uid g.id)

/-- `group.getUsers()`. -/
def groupUsers (st : Store) (gid : Nat) : List User :=
  st.users.filter (fun u => memberB st u.id gid)

/-- `Group.findOne({ where: { id }, include: [{ model: User, where: { id: uid } }] })`:
the membership-filtered lookup (`null` when the group does not exist or the
acting user is not a member). -/
def findGroupWithMember (st : Store) (gid uid : Nat) : Option Group :=
  (st.groups.filter (fun g => g.id == gid && memberB st uid g.id)).head?

structure MutationResult (α : Type) where
  result : Except JsErr α
  store : Store
deriving DecidableEq

/-! ## `messageLogic.createMessage` with its notification fan-out -/

structure CreateMessageResult where
  result : Except JsErr Message
  store : Store
  notifs : List Notification
deriving DecidableEq

/-- `messageLogic.createMessage`: membership-gated creation, then badge
increments for every other member and one notification per incremented
member with a truthy `registrationId`.  The notification badge is
`badgeCount + 1` where `badgeCount` is the stale pre-increment value held by
the instance Sequelize's `increment` resolves with. -/
def createMessage (st : Store) (ctxUser : Option User) (text : String) (groupId : Nat) :
    CreateMessageResult :=
  match getAuthenticatedUser ctxUser with
  | .error e => ⟨.error e, st, []⟩
  | .ok user =>
    match userGroupsWithId st user.id groupId with
    | [] => ⟨.error .unauthorized, st, []⟩
    | group :: _ =>
      let message : Message :=
        { id := st.nextMessageId, text := text, userId := user.id, groupId := groupId,
          createdAt := st.now }
      let st1 : Store := { st with messages := st.messages ++ [message],
                                   nextMessageId := st.nextMessageId + 1 }
      -- `group.getUsers()` runs after the insert, but the user rows and the
      -- membership table are unaffected by it, so they are read off `st`
      let others := (groupUsers st groupId).filter (fun u => u.id != user.id)
      let st2 : Store := { st1 with users := st.users.map (fun u =>
        if u.id != user.id && memberB st u.id groupId then
          { u with badgeCount := u.badgeCount + 1 }
        else u) }
      let registered := others.filter (fun u => strTruthy u.registrationId)
      let notifs := registered.map (fun u =>
        { toToken := u.registrationId.getD "",
          title := user.username ++ " @ " ++ group.name,
          body := text, sound := "default", badge := u.badgeCount + 1,
          clickAction := "openGroup", dataType := "MESSAGE_ADDED",
          dataGroupId := group.id, dataGroupName := group.name, priority := "high" })
      ⟨.ok message, st2, notifs⟩

/-! ## `groupLogic` mutations -/

/-- `groupLogic.deleteGroup`.  A failed membership-filtered lookup yields
`null`, and `group.getUsers()` on `null` throws a `TypeError` (not the
`'Unauthorized'` rejection) before any mutation. -/
def deleteGroup (st : Store) (ctxUser : Option User) (gid : Nat) : MutationResult Group :=
  match getAuthenticatedUser ctxUser with
  | .error e => ⟨.error e, st⟩
  | .ok user =>
    match findGroupWithMember st gid user.id with
    | none => ⟨.error .typeError, st⟩
    | some group =>
      let remUsers := groupUsers st group.id
      let st1 : Store := { st with members := st.members.filter (fun p =>
        !(p.2 == group.id && remUsers.any (fun u => u.id == p.1))) }
      let st2 : Store := { st1 with
        messages := st1.messages.filter (fun m => m.groupId != group.id) }
      let st3 : Store := match group.icon with
        | some key => { st2 with deletes := st2.deletes ++ [key] }
        | none => st2
      let st4 : Store := { st3 with groups := st3.groups.filter (fun g => g.id != group.id) }
      ⟨.ok group, st4⟩

/-- `groupLogic.leaveGroup`.  When the membership-filtered lookup yields
`null`, the code builds a rejected `'No group found'` promise but neither
returns nor awaits it, then crashes with a `TypeError` on
`group.removeUser`.  Otherwise: remove the member, destroy the group when no
member remains, return the id. -/
def leaveGroup (st : Store) (ctxUser : Option User) (gid : Nat) : MutationResult Nat :=
  match getAuthenticatedUser ctxUser with
  | .error e => ⟨.error e, st⟩
  | .ok user =>
    match findGroupWithMember st gid user.id with
    | none => ⟨.error .typeError, st⟩
    | some group =>
      let st1 : Store := { st with members := st.members.filter (fun p =>
        !(p.1 == user.id && p.2 == group.id)) }
      let st2 : Store :=
        if (groupUsers st1 group.id).isEmpty then
          { st1 with groups := st1.groups.filter (fun g => g.id != group.id) }
        else st1
      ⟨.ok gid, st2⟩

structure FilePayload where
  path : String
  fileType : String
deriving DecidableEq

structure UpdateGroupInput where
  id : Nat
  name : Option String := none
  lastRead : Option Nat := none
  icon : Option FilePayload := none

/-- The `lastRead` sub-operation of `updateGroup`: fetch the user's last-read
rows whose message belongs to this group, remove them, add the new one. -/
def applyLastReadUpdate (st : Store) (user : User) (gid lastReadId : Nat) : Store :=
  { st with lastReads := (st.lastReads.filter (fun p => !(p.1 == user.id &&
      st.messages.any (fun m => m.id == p.2 && m.groupId == gid)))) ++
        [(user.id, lastReadId)] }

/-- `groupLogic.updateGroup`.  The three optional sub-operations are chained
before the final `group.update`; the `lastRead` chain (and an icon upload)
runs even when the membership-filtered lookup yielded `null`, and the final
`group.update` on `null` then throws a `TypeError`. -/
def updateGroup (st : Store) (ctxUser : Option User) (inp : UpdateGroupInput) :
    MutationResult Group :=
  match getAuthenticatedUser ctxUser with
  | .error e => ⟨.error e, st⟩
  | .ok user =>
    let gOpt := findGroupWithMember st inp.id user.id
    let st1 := if natTruthy inp.lastRead
      then applyLastReadUpdate st user inp.id (inp.lastRead.getD 0)
      else st
    match gOpt with
    | none =>
      let st2 := if inp.icon.isSome
        then { st1 with uploads := st1.uploads ++ [st1.nextAssetKey],
                        nextAssetKey := st1.nextAssetKey + 1 }
        else st1
      ⟨.error .typeError, st2⟩
    | some group =>
      let stIcon := if inp.icon.isSome
        then { st1 with uploads := st1.uploads ++ [st1.nextAssetKey],
                        nextAssetKey := st1.nextAssetKey + 1,
                        deletes := st1.deletes ++ (match group.icon with
                          | some old => [old]
                          | none => []) }
        else st1
      let newGroup : Group := { group with
        name := if strTruthy inp.name then inp.name.getD "" else group.name,
        icon := if inp.icon.isSome then some st1.nextAssetKey else group.icon }
      let st2 : Store := { stIcon with groups := stIcon.groups.map (fun g =>
        if g.id == group.id then newGroup else g) }
      ⟨.ok newGroup, st2⟩

/-! ## `userLogic` field resolvers -/

/-- The `{ id, username }` projection returned by relational lookups with
`attributes: ['id', 'username']`. -/
structure UserRef where
  id : Nat
  username : String
deriving DecidableEq

/-- `userLogic.email`. -/
def userEmailR (ctxUser : Option User) (target : User) : Except JsErr String :=
  match getAuthenticatedUser ctxUser with
  | .error e => .error e
  | .ok cu => if cu.id == target.id then .ok cu.email else .error .unauthorized

/-- `userLogic.registrationId`. -/
def userRegistrationIdR (ctxUser : Option User) (target : User) :
    Except JsErr (Option String) :=
  match getAuthenticatedUser ctxUser with
  | .error e => .error e
  | .ok cu => if cu.id == target.id then .ok cu.registrationId else .error .unauthorized

/-- `userLogic.friends`. -/
def userFriendsR (st : Store) (ctxUser : Option User) (target : User) :
    Except JsErr (List UserRef) :=
  match getAuthenticatedUser ctxUser with
  | .error e => .error e
  | .ok cu =>
    if cu.id != target.id then .error .unauthorized
    else .ok ((st.users.filter (fun v => st.friends.contains (target.id, v.id))).map
      (fun v => { id := v.id, username := v.username }))

/-- `userLogic.groups`. -/
def userGroupsR (st : Store) (ctxUser : Option User) (target : User) :
    Except JsErr (List Group) :=
  match getAuthenticatedUser ctxUser with
  | .error e => .error e
  | .ok cu =>
    if cu.id != target.id then .error .unauthorized
    else .ok (st.groups.filter (fun g => memberB st target.id g.id))

/-- `ORDER BY createdAt DESC` for `userLogic.messages`. -/
def msgCreatedGe (a b : Message) : Prop := b.createdAt ≤ a.createdAt

instance : DecidableRel msgCreatedGe := fun a b =>
  decidable_of_iff (b.createdAt ≤ a.createdAt) Iff.rfl

/-- `userLogic.messages`. -/
def userMessagesR (st : Store) (ctxUser : Option User) (target : User) :
    Except JsErr (List Message) :=
  match getAuthenticatedUser ctxUser with
  | .error e => .error e
  | .ok cu =>
    if cu.id != target.id then .error .unauthorized
    else .ok (List.insertionSort msgCreatedGe
      (st.messages.filter (fun m => m.userId == target.id)))

/-! ## `subscriptionLogic.messageAdded` -/

/-- `subscriptionLogic.messageAdded`: fetch the user's groups restricted to
the claimed ids and reject when fewer rows come back than ids were
claimed. -/
def messageAddedSub (st : Store) (ctxUser : Option User) (groupIds : List Nat) :
    Except JsErr Unit :=
  match getAuthenticatedUser ctxUser with
  | .error e => .error e
  | .ok user =>
    let groups := st.groups.filter (fun g => memberB st user.id g.id && groupIds.contains g.id)
    if groupIds.length > groups.length then .error .unauthorized else .ok ()

/-! ## `userLogic.updateUser` -/

/-- A GraphQL nullable input field: absent, explicit `null`, or a string. -/
inductive NullableStr where
  | absent : NullableStr
  | nullVal : NullableStr
  | strVal (s : String) : NullableStr
deriving DecidableEq

structure UpdateUserInput where
  registrationId : NullableStr := .absent
  badgeCount : Option Nat := none
  username : Option String := none
  avatar : Option FilePayload := none

/-- The `options` object accumulated by `updateUser` before the single
`user.update(options)` call. -/
structure UserPatch where
  registrationId : Option (Option String) := none
  badgeCount : Option Nat := none
  username : Option String := none
  avatar : Option Nat := none
deriving DecidableEq

/-- The three truthiness-guarded `options` assignments of `updateUser`:
`registrationId` is kept when truthy or exactly `null` (an empty string is
falsy and not `null`, so it is dropped), `badgeCount` when truthy or `0`
(every non-negative integer), `username` when truthy (non-empty). -/
def buildUserOptions (inp : UpdateUserInput) : UserPatch :=
  let o0 : UserPatch := {}
  let o1 := match inp.registrationId with
    | .strVal s => if s.data.isEmpty then o0 else { o0 with registrationId := some (some s) }
    | .nullVal => { o0 with registrationId := some none }
    | .absent => o0
  let o2 := match inp.badgeCount with
    | some b => { o1 with badgeCount := some b }
    | none => o1
  match inp.username with
  | some u => if u.data.isEmpty then o2 else { o2 with username := some u }
  | none => o2

/-- `user.update(options)`: fields present in `options` are written, all
others keep their current value. -/
def applyUserPatch (u : User) (p : UserPatch) : User :=
  { u with
    registrationId := match p.registrationId with
      | some v => v
      | none => u.registrationId,
    badgeCount := p.badgeCount.getD u.badgeCount,
    username := p.username.getD u.username,
    avatar := match p.avatar with
      | some k => some k
      | none => u.avatar }

/-- `userLogic.updateUser`: build `options`, and when an avatar payload is
supplied upload the new asset, delete the previous one when present, and
write the new storage key together with the other options. -/
def updateUser (st : Store) (ctxUser : Option User) (inp : UpdateUserInput) :
    MutationResult User :=
  match getAuthenticatedUser ctxUser with
  | .error e => ⟨.error e, st⟩
  | .ok user =>
    let options := buildUserOptions inp
    match inp.avatar with
    | some _ =>
      let key := st.nextAssetKey
      let st1 : Store := { st with uploads := st.uploads ++ [key], nextAssetKey := key + 1 }
      let st2 : Store := match user.avatar with
        | some old => { st1 with deletes := st1.deletes ++ [old] }
        | none => st1
      let newUser := applyUserPatch user { options with avatar := some key }
      ⟨.ok newUser, { st2 with users := st2.users.map (fun u =>
        if u.id == user.id then newUser else u) }⟩
    | none =>
      let newUser := applyUserPatch user options
      ⟨.ok newUser, { st with users := st.users.map (fun u =>
        if u.id == user.id then newUser else u) }⟩

/-! ## Claim C4: delete/update authorization failure mode -/

def c4Store : Store :=
  { users := [⟨1, "alice", "a", none, 0, none, ""⟩, ⟨2, "bob", "b", none, 0, none, ""⟩],
    groups := [⟨42, "g", none⟩],
    messages := [⟨7, "m", 2, 42, 0⟩],
    members := [(2, 42)],
    friends := [], lastReads := [],
    nextMessageId := 8, nextAssetKey := 0, uploads := [], deletes := [], now := 1 }

/-- **C4 (code bug).** User 1 is authenticated but not a member of group 42,
so the membership-filtered lookup yields `null`.  `deleteGroup` then fails
with a `TypeError` (from `group.getUsers()` on `null`), not the
`'Unauthorized'` rejection the spec requires — though without mutating
anything — and `updateGroup` with a `lastRead` payload runs the last-read
mutation *before* failing with its `TypeError` (from `group.update` on
`null`). -/
theorem c4_unauthorized_lookup_bug :
    (deleteGroup c4Store (some ⟨1, "alice", "a", none, 0, none, ""⟩) 42).result
        = .error .typeError
    ∧ (deleteGroup c4Store (some ⟨1, "alice", "a", none, 0, none, ""⟩) 42).store = c4Store
    ∧ (updateGroup c4Store (some ⟨1, "alice", "a", none, 0, none, ""⟩)
        { id := 42, lastRead := some 7 }).result = .error .typeError
    ∧ (updateGroup c4Store (some ⟨1, "alice", "a", none, 0, none, ""⟩)
        { id := 42, lastRead := some 7 }).store.lastReads = [(1, 7)]
    ∧ c4Store.lastReads = []
    ∧ JsErr.typeError ≠ JsErr.unauthorized := by
  decide

/-! ## Claim C5: leaveGroup -/

def c5Store : Store :=
  { users := [⟨3, "carol", "c", none, 0, none, ""⟩, ⟨4, "dan", "d", none, 0, none, ""⟩],
    groups := [⟨9, "grp", none⟩],
    messages := [],
    members := [(3, 9), (4, 9)],
    friends := [], lastReads := [],
    nextMessageId := 1, nextAssetKey := 0, uploads := [], deletes := [], now := 0 }

def c5StoreLast : Store := { c5Store with members := [(4, 9)] }

/-- **C5 (code bug on the not-found path).** For a non-member the lookup
yields `null` and the `'No group found'` rejection is constructed but never
returned, so the code instead throws a `TypeError` (`group.removeUser` on
`null`) without mutating anything.  The success paths behave as claimed:
a non-last leaver (user 3 of `{3,4}`) leaves the group row intact with
membership reduced to `[(4, 9)]` and gets `{id}` back; the last leaver
(user 4) destroys the group, which is no longer findable afterwards. -/
theorem c5_leaveGroup_behavior :
    (leaveGroup c5Store (some ⟨5, "eve", "e", none, 0, none, ""⟩) 9).result
        = .error .typeError
    ∧ (leaveGroup c5Store (some ⟨5, "eve", "e", none, 0, none, ""⟩) 9).store = c5Store
    ∧ JsErr.typeError ≠ JsErr.noGroupFound
    ∧ (leaveGroup c5Store (some ⟨3, "carol", "c", none, 0, none, ""⟩) 9).result = .ok 9
    ∧ (leaveGroup c5Store (some ⟨3, "carol", "c", none, 0, none, ""⟩) 9).store.members
        = [(4, 9)]
    ∧ (leaveGroup c5Store (some ⟨3, "carol", "c", none, 0, none, ""⟩) 9).store.groups
        = [⟨9, "grp", none⟩]
    ∧ (leaveGroup c5StoreLast (some ⟨4, "dan", "d", none, 0, none, ""⟩) 9).result = .ok 9
    ∧ (leaveGroup c5StoreLast (some ⟨4, "dan", "d", none, 0, none, ""⟩) 9).store.groups = []
    ∧ findGroupWithMember
        (leaveGroup c5StoreLast (some ⟨4, "dan", "d", none, 0, none, ""⟩) 9).store 9 4
        = none := by
  decide

/-! ## Helper lemmas for store reasoning -/

theorem memberB_iff (st : Store) (uid gid : Nat) :
    memberB st uid gid = true ↔ (uid, gid) ∈ st.members :=
  List.elem_iff

theorem find?_map_presId (f : User → User) (hf : ∀ u, (f u).id = u.id) (uid : Nat) :
    ∀ l : List User, (l.map f).find? (fun v => v.id == uid)
      = (l.find? (fun v => v.id == uid)).map f := by
  intro l
  induction l with
  | nil => rfl
  | cons a t ih =>
    by_cases h : (a.id == uid) = true
    · have h2 : ((f a).id == uid) = true := by rw [hf a]; exact h
      rw [List.map_cons,
        @List.find?_cons_of_pos _ (fun v => v.id == uid) (f a) (t.map f) h2,
        @List.find?_cons_of_pos _ (fun v => v.id == uid) a t h]
      rfl
    · have h2 : ¬((f a).id == uid) = true := by rw [hf a]; exact h
      rw [List.map_cons,
        @List.find?_cons_of_neg _ (fun v => v.id == uid) (f a) (t.map f) h2,
        @List.find?_cons_of_neg _ (fun v => v.id == uid) a t h, ih]

theorem find?_self_of_nodup :
    ∀ l : List User, (l.map (fun u => u.id)).Nodup → ∀ u ∈ l,
      l.find? (fun v => v.id == u.id) = some u := by
  intro l
  induction l with
  | nil => intro _ u hu; cases hu
  | cons a t ih =>
    intro hnd u hu
    rw [List.map_cons, List.nodup_cons] at hnd
    rcases List.mem_cons.mp hu with rfl | hut
    · exact List.find?_cons_of_pos _ (by simp)
    · by_cases h : (a.id == u.id) = true
      · exfalso
        have hm : u.id ∈ t.map (fun v => v.id) := List.mem_map_of_mem _ hut
        rw [beq_iff_eq] at h
        exact hnd.1 (h ▸ hm)
      · rw [@List.find?_cons_of_neg _ (fun v => v.id == u.id) a t h]
        exact ih hnd.2 u hut

/-! ## Claim C6: notification fan-out -/

/-- **C6.** Creating a message in a group increments `badgeCount` by exactly
1 for every member row other than the author (never the author's own badge
and never a non-member's), and dispatches one push notification to exactly
those incremented members whose `registrationId` is truthy (non-null — and,
per data model, tokens are non-empty), carrying the
`"{author.username} @ {group.name}"` title, the message text as body, and
the recipient's just-incremented badge count.  Distinct user-row ids are the
database's primary-key uniqueness. -/
theorem c6_fanout_spec (st : Store) (user : User) (text : String) (gid : Nat) (group : Group)
    (hnodup : (st.users.map (fun u => u.id)).Nodup)
    (hhead : (userGroupsWithId st user.id gid).head? = some group) :
    ((createMessage st (some user) text gid).result
        = .ok ⟨st.nextMessageId, text, user.id, gid, st.now⟩)
    ∧ (∀ u ∈ st.users, u.id ≠ user.id → (u.id, gid) ∈ st.members →
        (createMessage st (some user) text gid).store.users.find? (fun v => v.id == u.id)
          = some { u with badgeCount := u.badgeCount + 1 })
    ∧ (∀ u ∈ st.users, u.id = user.id ∨ (u.id, gid) ∉ st.members →
        (createMessage st (some user) text gid).store.users.find? (fun v => v.id == u.id)
          = some u)
    ∧ (∀ n ∈ (createMessage st (some user) text gid).notifs,
        ∃ u ∈ st.users, (u.id, gid) ∈ st.members ∧ u.id ≠ user.id ∧
          u.registrationId = some n.toToken ∧
          n.title = user.username ++ " @ " ++ group.name ∧
          n.body = text ∧ n.badge = u.badgeCount + 1)
    ∧ (∀ u ∈ st.users, (u.id, gid) ∈ st.members → u.id ≠ user.id →
        strTruthy u.registrationId = true →
        ∃ n ∈ (createMessage st (some user) text gid).notifs,
          n.toToken = u.registrationId.getD "" ∧ n.badge = u.badgeCount + 1)
    ∧ (createMessage st (some user) text gid).notifs.length
        ≤ ((groupUsers st gid).filter (fun u => u.id != user.id)).length := by
  cases hug : userGroupsWithId st user.id gid with
  | nil => rw [hug] at hhead; cases hhead
  | cons g rest =>
    rw [hug] at hhead
    have hg : g = group := by simpa using hhead
    subst hg
    refine ⟨?_, ?_, ?_, ?_, ?_, ?_⟩
    · simp only [createMessage, getAuthenticatedUser, hug]
    · intro u hu hne hmem
      simp only [createMessage, getAuthenticatedUser, hug]
      have hf : ∀ v : User, (if v.id != user.id && memberB st v.id gid then
          { v with badgeCount := v.badgeCount + 1 } else v).id = v.id := by
        intro v
        split <;> rfl
      rw [find?_map_presId (fun w => if w.id != user.id && memberB st w.id gid then
          { w with badgeCount := w.badgeCount + 1 } else w) hf u.id st.users,
        find?_self_of_nodup st.users hnodup u hu]
      have hcond : (u.id != user.id && memberB st u.id gid) = true := by
        rw [Bool.and_eq_true, bne_iff_ne, memberB_iff]
        exact ⟨hne, hmem⟩
      simp only [Option.map_some']
      rw [if_pos hcond]
    · intro u hu hcase
      simp only [createMessage, getAuthenticatedUser, hug]
      have hf : ∀ v : User, (if v.id != user.id && memberB st v.id gid then
          { v with badgeCount := v.badgeCount + 1 } else v).id = v.id := by
        intro v
        split <;> rfl
      rw [find?_map_presId (fun w => if w.id != user.id && memberB st w.id gid then
          { w with badgeCount := w.badgeCount + 1 } else w) hf u.id st.users,
        find?_self_of_nodup st.users hnodup u hu]
      have hcond : ¬(u.id != user.id && memberB st u.id gid) = true := by
        rw [Bool.and_eq_true, bne_iff_ne, memberB_iff]
        rcases hcase with h | h
        · exact fun hc => hc.1 h
        · exact fun hc => h hc.2
      simp only [Option.map_some']
      rw [if_neg hcond]
    · intro n hn
      simp only [createMessage, getAuthenticatedUser, hug, List.mem_map,
        List.mem_filter] at hn
      obtain ⟨u, ⟨⟨hugrp, hne⟩, hreg⟩, rfl⟩ := hn
      rw [groupUsers, List.mem_filter] at hugrp
      obtain ⟨hust, hmem⟩ := hugrp
      cases hrid : u.registrationId with
      | none => simp [strTruthy, hrid] at hreg
      | some s =>
        refine ⟨u, hust, (memberB_iff st u.id gid).mp hmem, by simpa using hne,
          ?_, rfl, rfl, rfl⟩
        rw [hrid]
        rfl
    · intro u hu hmem hne hreg
      simp only [createMessage, getAuthenticatedUser, hug, List.mem_map, List.mem_filter]
      refine ⟨_, ⟨u, ⟨⟨?_, ?_⟩, hreg⟩, rfl⟩, rfl, rfl⟩
      · rw [groupUsers, List.mem_filter]
        exact ⟨hu, (memberB_iff st u.id gid).mpr hmem⟩
      · simpa using hne
    · simp only [createMessage, getAuthenticatedUser, hug, List.length_map]
      exact List.length_filter_le _ _

def c6Store : Store :=
  { users := [⟨1, "alice", "a", some "t1", 0, none, ""⟩,
              ⟨2, "bob", "b", some "t2", 0, none, ""⟩,
              ⟨3, "carol", "c", none, 0, none, ""⟩],
    groups := [⟨9, "G", none⟩],
    messages := [],
    members := [(1, 9), (2, 9), (3, 9)],
    friends := [], lastReads := [],
    nextMessageId := 1, nextAssetKey := 0, uploads := [], deletes := [], now := 4 }

/-- Concrete check of `c6_fanout_spec`: alice posts to a group with members
alice/bob/carol; bob (registered) is incremented to 1 and notified with
badge 1, alice's own badge stays 0. -/
theorem c6_fanout_spec_witness :
    ((createMessage c6Store (some ⟨1, "alice", "a", some "t1", 0, none, ""⟩) "hi"
        9).store.users.find? (fun v => v.id == 2) = some ⟨2, "bob", "b", some "t2", 1, none, ""⟩)
    ∧ ((createMessage c6Store (some ⟨1, "alice", "a", some "t1", 0, none, ""⟩) "hi"
        9).store.users.find? (fun v => v.id == 1)
          = some ⟨1, "alice", "a", some "t1", 0, none, ""⟩)
    ∧ (∃ n ∈ (createMessage c6Store (some ⟨1, "alice", "a", some "t1", 0, none, ""⟩) "hi"
        9).notifs, n.toToken = "t2" ∧ n.badge = 1) := by
  have h := c6_fanout_spec c6Store ⟨1, "alice", "a", some "t1", 0, none, ""⟩ "hi" 9
    ⟨9, "G", none⟩ (by decide) (by decide)
  refine ⟨?_, ?_, ?_⟩
  · exact h.2.1 ⟨2, "bob", "b", some "t2", 0, none, ""⟩ (by decide) (by decide) (by decide)
  · exact h.2.2.1 ⟨1, "alice", "a", some "t1", 0, none, ""⟩ (by decide) (Or.inl rfl)
  · obtain ⟨n, hn, h3, h4⟩ := h.2.2.2.2.1 ⟨2, "bob", "b", some "t2", 0, none, ""⟩
      (by decide) (by decide) (by decide) (by decide)
    exact ⟨n, hn, h3, h4⟩

/-! ## Claim C7: createMessage authorization -/

/-- **C7.** `createMessage` creates the message only when the authenticated
user is a current member of the target group: otherwise it rejects with
`'Unauthorized'` touching nothing and dispatching nothing, and on success
the created row carries the authenticated user's id as its author. -/
theorem c7_createMessage_member_gate (st : Store) (user : User) (text : String) (gid : Nat) :
    ((¬∃ g ∈ st.groups, g.id = gid ∧ (user.id, g.id) ∈ st.members) →
      createMessage st (some user) text gid = ⟨.error .unauthorized, st, []⟩)
    ∧ (∀ m, (createMessage st (some user) text gid).result = .ok m →
        m.userId = user.id ∧ m.text = text ∧ m.groupId = gid ∧
        (createMessage st (some user) text gid).store.messages = st.messages ++ [m] ∧
        ∃ g ∈ st.groups, g.id = gid ∧ (user.id, g.id) ∈ st.members) := by
  constructor
  · intro hno
    have hnil : userGroupsWithId st user.id gid = [] := by
      rw [userGroupsWithId, List.filter_eq_nil_iff]
      intro g hg hcontra
      rw [Bool.and_eq_true, beq_iff_eq] at hcontra
      exact hno ⟨g, hg, hcontra.1, (memberB_iff st user.id g.id).mp hcontra.2⟩
    simp only [createMessage, getAuthenticatedUser, hnil]
  · intro m hm
    cases hug : userGroupsWithId st user.id gid with
    | nil =>
      simp only [createMessage, getAuthenticatedUser, hug] at hm
      exact absurd hm (by simp)
    | cons g rest =>
      simp only [createMessage, getAuthenticatedUser, hug] at hm
      rw [Except.ok.injEq] at hm
      subst hm
      refine ⟨rfl, rfl, rfl, ?_, ?_⟩
      · simp only [createMessage, getAuthenticatedUser, hug]
      · have hgmem : g ∈ userGroupsWithId st user.id gid := by
          rw [hug]
          exact List.mem_cons_self g rest
        rw [userGroupsWithId, List.mem_filter] at hgmem
        obtain ⟨hgs, hcond⟩ := hgmem
        rw [Bool.and_eq_true, beq_iff_eq] at hcond
        exact ⟨g, hgs, hcond.1, (memberB_iff st user.id g.id).mp hcond.2⟩

def c7Store : Store :=
  { users := [⟨1, "ann", "a", none, 0, none, ""⟩],
    groups := [⟨5, "g", none⟩],
    messages := [],
    members := [(1, 5)],
    friends := [], lastReads := [],
    nextMessageId := 3, nextAssetKey := 0, uploads := [], deletes := [], now := 7 }

/-- Concrete check of `c7_createMessage_member_gate`: a non-member is
rejected with `'Unauthorized'`, a member's message lands with the member as
author. -/
theorem c7_createMessage_member_gate_witness :
    createMessage c7Store (some ⟨2, "zed", "z", none, 0, none, ""⟩) "x" 5
      = ⟨.error .unauthorized, c7Store, []⟩
    ∧ (createMessage c7Store (some ⟨1, "ann", "a", none, 0, none, ""⟩) "x" 5).store.messages
      = c7Store.messages ++ [⟨3, "x", 1, 5, 7⟩] := by
  constructor
  · exact (c7_createMessage_member_gate c7Store ⟨2, "zed", "z", none, 0, none, ""⟩ "x" 5).1
      (by decide)
  · exact ((c7_createMessage_member_gate c7Store ⟨1, "ann", "a", none, 0, none, ""⟩ "x" 5).2
      ⟨3, "x", 1, 5, 7⟩ (by decide)).2.2.2.1

/-! ## Claim C8: identity-gated private fields -/

/-- **C8.** Every private-data field resolver of `userLogic` (`email`,
`registrationId`, `friends`, `groups`, `messages`) rejects with
`'Unauthorized'` whenever the acting user's id differs from the target
user's id, and returns the field's value when the ids are equal. -/
theorem c8_private_field_auth (st : Store) (cu target : User) :
    (cu.id ≠ target.id →
      userEmailR (some cu) target = .error .unauthorized
      ∧ userRegistrationIdR (some cu) target = .error .unauthorized
      ∧ userFriendsR st (some cu) target = .error .unauthorized
      ∧ userGroupsR st (some cu) target = .error .unauthorized
      ∧ userMessagesR st (some cu) target = .error .unauthorized)
    ∧ (cu.id = target.id →
      userEmailR (some cu) target = .ok cu.email
      ∧ userRegistrationIdR (some cu) target = .ok cu.registrationId
      ∧ userFriendsR st (some cu) target
          = .ok ((st.users.filter (fun v => st.friends.contains (target.id, v.id))).map
              (fun v => ⟨v.id, v.username⟩))
      ∧ userGroupsR st (some cu) target
          = .ok (st.groups.filter (fun g => memberB st target.id g.id))
      ∧ userMessagesR st (some cu) target
          = .ok (List.insertionSort msgCreatedGe
              (st.messages.filter (fun m => m.userId == target.id)))) := by
  constructor
  · intro hne
    have hb : (cu.id == target.id) = false := by simpa using hne
    have hb2 : (cu.id != target.id) = true := by simpa using hne
    refine ⟨?_, ?_, ?_, ?_, ?_⟩ <;>
      simp [userEmailR, userRegistrationIdR, userFriendsR, userGroupsR, userMessagesR,
        getAuthenticatedUser, hb, hb2]
  · intro heq
    have hb : (cu.id == target.id) = true := by simpa using heq
    have hb2 : (cu.id != target.id) = false := by simpa [bne] using heq
    refine ⟨?_, ?_, ?_, ?_, ?_⟩ <;>
      simp [userEmailR, userRegistrationIdR, userFriendsR, userGroupsR, userMessagesR,
        getAuthenticatedUser, hb, hb2]

/-- Concrete check of `c8_private_field_auth` for a mismatched and a matching
pair. -/
theorem c8_private_field_auth_witness :
    userEmailR (some ⟨1, "a", "a@x", none, 0, none, ""⟩) ⟨2, "b", "b@x", none, 0, none, ""⟩
      = .error .unauthorized
    ∧ userFriendsR ⟨[], [], [], [], [], [], 0, 0, [], [], 0⟩
        (some ⟨1, "a", "a@x", none, 0, none, ""⟩) ⟨2, "b", "b@x", none, 0, none, ""⟩
      = .error .unauthorized
    ∧ userEmailR (some ⟨1, "a", "a@x", none, 0, none, ""⟩) ⟨1, "a", "a@x", none, 0, none, ""⟩
      = .ok "a@x" := by
  refine ⟨?_, ?_, ?_⟩
  · exact ((c8_private_field_auth ⟨[], [], [], [], [], [], 0, 0, [], [], 0⟩
      ⟨1, "a", "a@x", none, 0, none, ""⟩ ⟨2, "b", "b@x", none, 0, none, ""⟩).1 (by decide)).1
  · exact ((c8_private_field_auth ⟨[], [], [], [], [], [], 0, 0, [], [], 0⟩
      ⟨1, "a", "a@x", none, 0, none, ""⟩ ⟨2, "b", "b@x", none, 0, none, ""⟩).1
        (by decide)).2.2.1
  · exact ((c8_private_field_auth ⟨[], [], [], [], [], [], 0, 0, [], [], 0⟩
      ⟨1, "a", "a@x", none, 0, none, ""⟩ ⟨1, "a", "a@x", none, 0, none, ""⟩).2 rfl).1

/-! ## Claim C9: subscription authorization -/

theorem length_filter_by_claimed_le (p : Group → Bool) (gs : List Group) (ids : List Nat)
    (hg : (gs.map (fun g => g.id)).Nodup) :
    (gs.filter (fun g => p g && ids.contains g.id)).length ≤ ids.length := by
  classical
  have hLnd : ((gs.filter (fun g => p g && ids.contains g.id)).map (fun g => g.id)).Nodup :=
    hg.sublist ((gs.filter_sublist).map (fun g => g.id))
  have hsub : ((gs.filter (fun g => p g && ids.contains g.id)).map
      (fun g => g.id)).toFinset ⊆ ids.toFinset := by
    intro i hi
    simp only [List.mem_toFinset, List.mem_map, List.mem_filter, Bool.and_eq_true] at hi ⊢
    obtain ⟨g, ⟨_, _, hcont⟩, rfl⟩ := hi
    exact List.elem_iff.mp hcont
  calc (gs.filter (fun g => p g && ids.contains g.id)).length
      = ((gs.filter (fun g => p g && ids.contains g.id)).map (fun g => g.id)).length :=
        (List.length_map _ _).symm
    _ = ((gs.filter (fun g => p g && ids.contains g.id)).map
          (fun g => g.id)).toFinset.card := (List.toFinset_card_of_nodup hLnd).symm
    _ ≤ ids.toFinset.card := Finset.card_le_card hsub
    _ ≤ ids.length := ids.toFinset_card_le

theorem length_filter_by_claimed (p : Group → Bool) (gs : List Group) (ids : List Nat)
    (hg : (gs.map (fun g => g.id)).Nodup) (hids : ids.Nodup) :
    (gs.filter (fun g => p g && ids.contains g.id)).length = ids.length
      ↔ ∀ i ∈ ids, ∃ g ∈ gs, p g = true ∧ g.id = i := by
  classical
  have hLnd : ((gs.filter (fun g => p g && ids.contains g.id)).map (fun g => g.id)).Nodup :=
    hg.sublist ((gs.filter_sublist).map (fun g => g.id))
  have hset : ((gs.filter (fun g => p g && ids.contains g.id)).map (fun g => g.id)).toFinset
      = ids.toFinset.filter (fun i => ∃ g ∈ gs, p g = true ∧ g.id = i) := by
    ext i
    simp only [List.mem_toFinset, Finset.mem_filter, List.mem_map, List.mem_filter,
      Bool.and_eq_true]
    constructor
    · rintro ⟨g, ⟨hggs, hp, hcont⟩, rfl⟩
      exact ⟨List.elem_iff.mp hcont, g, hggs, hp, rfl⟩
    · rintro ⟨hiids, g, hggs, hp, rfl⟩
      exact ⟨g, ⟨hggs, hp, List.elem_iff.mpr hiids⟩, rfl⟩
  have hcount : (gs.filter (fun g => p g && ids.contains g.id)).length
      = (ids.toFinset.filter (fun i => ∃ g ∈ gs, p g = true ∧ g.id = i)).card := by
    rw [← hset, List.toFinset_card_of_nodup hLnd, List.length_map]
  rw [hcount, ← List.toFinset_card_of_nodup hids]
  constructor
  · intro hcard i hi
    have hfeq : ids.toFinset.filter (fun i => ∃ g ∈ gs, p g = true ∧ g.id = i)
        = ids.toFinset :=
      Finset.eq_of_subset_of_card_le (Finset.filter_subset _ _) (le_of_eq hcard.symm)
    have := (Finset.filter_eq_self.mp hfeq) i (List.mem_toFinset.mpr hi)
    exact this
  · intro hall
    rw [Finset.filter_eq_self.mpr (fun i hi => hall i (List.mem_toFinset.mp hi))]

def c9Store : Store :=
  { users := [⟨5, "u", "u", none, 0, none, ""⟩],
    groups := [⟨1, "g", none⟩],
    messages := [], members := [(5, 1)], friends := [], lastReads := [],
    nextMessageId := 0, nextAssetKey := 0, uploads := [], deletes := [], now := 0 }

/-- **C9 refuted as stated**: the claimed list `[1, 1]` is, as a set, a
subset of user 5's memberships (`{1}`), yet the code compares the list
length 2 against the 1 distinct matching group row and rejects with
`'Unauthorized'`. -/
theorem c9_counterexample :
    messageAddedSub c9Store (some ⟨5, "u", "u", none, 0, none, ""⟩) [1, 1]
      = .error .unauthorized
    ∧ ∀ gid ∈ [1, 1], ∃ g ∈ c9Store.groups,
        ((5 : Nat), g.id) ∈ c9Store.members ∧ g.id = gid := by
  decide

/-- **C9 (amended).** For duplicate-free claimed id lists (and distinct group
rows), `messageAdded` rejects with `'Unauthorized'` exactly when the claimed
set is not a subset of the current user's group memberships, and accepts
exactly when it is; claiming only a subset of owned groups succeeds.  (With
duplicates in the claimed list the code can reject a set-wise valid claim,
since it compares the raw list length against the count of distinct matching
rows.) -/
theorem c9_messageAdded_subset_auth (st : Store) (user : User) (groupIds : List Nat)
    (hg : (st.groups.map (fun g => g.id)).Nodup) (hids : groupIds.Nodup) :
    (messageAddedSub st (some user) groupIds = .error .unauthorized
      ↔ ¬∀ gid ∈ groupIds, ∃ g ∈ st.groups,
          (user.id, g.id) ∈ st.members ∧ g.id = gid)
    ∧ (messageAddedSub st (some user) groupIds = .ok ()
      ↔ ∀ gid ∈ groupIds, ∃ g ∈ st.groups,
          (user.id, g.id) ∈ st.members ∧ g.id = gid) := by
  have hconv : (∀ gid ∈ groupIds, ∃ g ∈ st.groups, (user.id, g.id) ∈ st.members ∧ g.id = gid)
      ↔ ∀ gid ∈ groupIds, ∃ g ∈ st.groups, memberB st user.id g.id = true ∧ g.id = gid := by
    simp only [memberB_iff]
  have hle : (st.groups.filter
        (fun g => memberB st user.id g.id && groupIds.contains g.id)).length
      ≤ groupIds.length := by
    simpa using length_filter_by_claimed_le (fun g => memberB st user.id g.id)
      st.groups groupIds hg
  have heq : (st.groups.filter
        (fun g => memberB st user.id g.id && groupIds.contains g.id)).length
        = groupIds.length
      ↔ ∀ i ∈ groupIds, ∃ g ∈ st.groups, memberB st user.id g.id = true ∧ g.id = i := by
    have h := length_filter_by_claimed (fun g => memberB st user.id g.id)
      st.groups groupIds hg hids
    simpa using h
  unfold messageAddedSub getAuthenticatedUser
  simp only
  by_cases hrej : groupIds.length > (st.groups.filter
      (fun g => memberB st user.id g.id && groupIds.contains g.id)).length
  · rw [if_pos hrej]
    constructor
    · simp only [true_iff]
      intro hall
      have := heq.mpr (hconv.mp hall)
      omega
    · constructor
      · intro h
        exact absurd h (by simp)
      · intro hall
        exfalso
        have := heq.mpr (hconv.mp hall)
        omega
  · rw [if_neg hrej]
    constructor
    · constructor
      · intro h
        exact absurd h (by simp)
      · intro hnall
        exfalso
        exact hnall (hconv.mpr (heq.mp (by omega)))
    · simp only [true_iff]
      exact hconv.mpr (heq.mp (by omega))

def c9StoreW : Store :=
  { users := [⟨5, "u", "u", none, 0, none, ""⟩],
    groups := [⟨2, "a", none⟩, ⟨3, "b", none⟩],
    messages := [], members := [(5, 2)], friends := [], lastReads := [],
    nextMessageId := 0, nextAssetKey := 0, uploads := [], deletes := [], now := 0 }

/-- Concrete check of `c9_messageAdded_subset_auth`: user 5 owns group 2 of
`{2, 3}`; claiming `[2]` succeeds, claiming `[2, 3]` is rejected. -/
theorem c9_messageAdded_subset_auth_witness :
    messageAddedSub c9StoreW (some ⟨5, "u", "u", none, 0, none, ""⟩) [2] = .ok ()
    ∧ messageAddedSub c9StoreW (some ⟨5, "u", "u", none, 0, none, ""⟩) [2, 3]
      = .error .unauthorized := by
  constructor
  · exact (c9_messageAdded_subset_auth c9StoreW ⟨5, "u", "u", none, 0, none, ""⟩ [2]
      (by decide) (by decide)).2.mpr (by decide)
  · exact (c9_messageAdded_subset_auth c9StoreW ⟨5, "u", "u", none, 0, none, ""⟩ [2, 3]
      (by decide) (by decide)).1.mpr (by decide)

/-! ## Claim C10: updateUser field policy -/

theorem buildUserOptions_registrationId (inp : UpdateUserInput) :
    (buildUserOptions inp).registrationId =
      match inp.registrationId with
      | .strVal s => if s.data.isEmpty then none else some (some s)
      | .nullVal => some none
      | .absent => none := by
  unfold buildUserOptions
  cases inp.registrationId <;> cases inp.badgeCount <;> cases inp.username <;>
    dsimp only <;> (try split_ifs) <;> rfl

theorem buildUserOptions_badgeCount (inp : UpdateUserInput) :
    (buildUserOptions inp).badgeCount =
      match inp.badgeCount with
      | some b => some b
      | none => none := by
  unfold buildUserOptions
  cases inp.registrationId <;> cases inp.badgeCount <;> cases inp.username <;>
    dsimp only <;> (try split_ifs) <;> rfl

theorem buildUserOptions_username (inp : UpdateUserInput) :
    (buildUserOptions inp).username =
      match inp.username with
      | some s => if s.data.isEmpty then none else some s
      | none => none := by
  unfold buildUserOptions
  cases inp.registrationId <;> cases inp.badgeCount <;> cases inp.username <;>
    dsimp only <;> (try split_ifs) <;> rfl

theorem buildUserOptions_avatar (inp : UpdateUserInput) :
    (buildUserOptions inp).avatar = none := by
  unfold buildUserOptions
  cases inp.registrationId <;> cases inp.badgeCount <;> cases inp.username <;>
    dsimp only <;> (try split_ifs) <;> rfl

/-- **C10 (amended).** `updateUser` writes only the fields present in its
input: `registrationId` when a *non-empty* value is supplied (an empty
string is falsy and not `null`, so the code drops it) or an explicit `null`
which clears it; `badgeCount` whenever supplied, including `0`; `username`
when a non-empty value is supplied; the avatar is replaced — new asset
uploaded, old asset deleted when present — exactly when an avatar payload is
supplied; every absent field keeps its current value, and id/email/jwt are
never touched. -/
theorem c10_updateUser_field_policy (st : Store) (user : User) (inp : UpdateUserInput) :
    ∀ nu, (updateUser st (some user) inp).result = .ok nu →
      ((∀ s, inp.registrationId = .strVal s → ¬s.data.isEmpty → nu.registrationId = some s)
      ∧ (inp.registrationId = .nullVal → nu.registrationId = none)
      ∧ (inp.registrationId = .absent → nu.registrationId = user.registrationId)
      ∧ (∀ s, inp.registrationId = .strVal s → s.data.isEmpty →
          nu.registrationId = user.registrationId)
      ∧ (∀ b, inp.badgeCount = some b → nu.badgeCount = b)
      ∧ (inp.badgeCount = none → nu.badgeCount = user.badgeCount)
      ∧ (∀ s, inp.username = some s → ¬s.data.isEmpty → nu.username = s)
      ∧ (inp.username = none → nu.username = user.username)
      ∧ (∀ s, inp.username = some s → s.data.isEmpty → nu.username = user.username)
      ∧ (inp.avatar = none → nu.avatar = user.avatar
          ∧ (updateUser st (some user) inp).store.uploads = st.uploads
          ∧ (updateUser st (some user) inp).store.deletes = st.deletes)
      ∧ (∀ fp, inp.avatar = some fp → nu.avatar = some st.nextAssetKey
          ∧ (updateUser st (some user) inp).store.uploads = st.uploads ++ [st.nextAssetKey]
          ∧ (updateUser st (some user) inp).store.deletes
              = st.deletes ++ (match user.avatar with
                  | some old => [old]
                  | none => []))
      ∧ nu.id = user.id ∧ nu.email = user.email ∧ nu.jwt = user.jwt) := by
  intro nu hnu
  cases hav : inp.avatar with
  | none =>
    have hval : nu = applyUserPatch user (buildUserOptions inp) := by
      simp only [updateUser, getAuthenticatedUser, hav] at hnu
      exact (Except.ok.injEq _ _).mp hnu |>.symm
    subst hval
    refine ⟨?_, ?_, ?_, ?_, ?_, ?_, ?_, ?_, ?_, ?_, ?_, ?_, ?_, ?_⟩
    · intro s hs hne
      simp [applyUserPatch, buildUserOptions_registrationId, hs, hne]
    · intro hs
      simp [applyUserPatch, buildUserOptions_registrationId, hs]
    · intro hs
      simp [applyUserPatch, buildUserOptions_registrationId, hs]
    · intro s hs hemp
      simp [applyUserPatch, buildUserOptions_registrationId, hs, hemp]
    · intro b hb
      simp [applyUserPatch, buildUserOptions_badgeCount, hb]
    · intro hb
      simp [applyUserPatch, buildUserOptions_badgeCount, hb]
    · intro s hs hne
      simp [applyUserPatch, buildUserOptions_username, hs, hne]
    · intro hs
      simp [applyUserPatch, buildUserOptions_username, hs]
    · intro s hs hemp
      simp [applyUserPatch, buildUserOptions_username, hs, hemp]
    · refine fun _ => ⟨?_, ?_, ?_⟩
      · simp [applyUserPatch, buildUserOptions_avatar]
      · simp only [updateUser, getAuthenticatedUser, hav]
      · simp only [updateUser, getAuthenticatedUser, hav]
    · intro fp hfp
      exact absurd hfp (by simp)
    · simp [applyUserPatch]
    · simp [applyUserPatch]
    · simp [applyUserPatch]
  | some fp =>
    have hval : nu = applyUserPatch user
        { buildUserOptions inp with avatar := some st.nextAssetKey } := by
      simp only [updateUser, getAuthenticatedUser, hav] at hnu
      exact (Except.ok.injEq _ _).mp hnu |>.symm
    subst hval
    refine ⟨?_, ?_, ?_, ?_, ?_, ?_, ?_, ?_, ?_, ?_, ?_, ?_, ?_, ?_⟩
    · intro s hs hne
      simp [applyUserPatch, buildUserOptions_registrationId, hs, hne]
    · intro hs
      simp [applyUserPatch, buildUserOptions_registrationId, hs]
    · intro hs
      simp [applyUserPatch, buildUserOptions_registrationId, hs]
    · intro s hs hemp
      simp [applyUserPatch, buildUserOptions_registrationId, hs, hemp]
    · intro b hb
      simp [applyUserPatch, buildUserOptions_badgeCount, hb]
    · intro hb
      simp [applyUserPatch, buildUserOptions_badgeCount, hb]
    · intro s hs hne
      simp [applyUserPatch, buildUserOptions_username, hs, hne]
    · intro hs
      simp [applyUserPatch, buildUserOptions_username, hs]
    · intro s hs hemp
      simp [applyUserPatch, buildUserOptions_username, hs, hemp]
    · intro hnone
      exact absurd hnone (by simp)
    · intro fp2 _
      refine ⟨?_, ?_, ?_⟩
      · simp [applyUserPatch]
      · simp only [updateUser, getAuthenticatedUser, hav]
        cases user.avatar <;> rfl
      · simp only [updateUser, getAuthenticatedUser, hav]
        cases hua : user.avatar <;> simp [hua]
    · simp [applyUserPatch]
    · simp [applyUserPatch]
    · simp [applyUserPatch]

def c10User : User := ⟨1, "u", "e", some "old", 0, none, "j"⟩

def c10Store : Store :=
  { users := [c10User], groups := [], messages := [], members := [], friends := [],
    lastReads := [], nextMessageId := 0, nextAssetKey := 0, uploads := [], deletes := [],
    now := 0 }

/-- **C10 refuted as stated**: supplying `registrationId = ""` (a supplied,
non-null value) does not write it — the truthiness guard drops the empty
string, so the user keeps `some "old"` instead of `some ""`. -/
theorem c10_counterexample :
    (updateUser c10Store (some c10User) { registrationId := .strVal "" }).result
      = .ok c10User
    ∧ c10User.registrationId = some "old"
    ∧ some "old" ≠ (some "" : Option String) := by
  decide

def c10StoreW : Store :=
  { users := [⟨1, "u", "e", some "old", 2, some 7, "j"⟩],
    groups := [], messages := [], members := [], friends := [], lastReads := [],
    nextMessageId := 0, nextAssetKey := 100, uploads := [], deletes := [], now := 0 }

/-- Concrete check of `c10_updateUser_field_policy`: writing a new
registration id, badge 3, username and avatar at once replaces exactly those
fields, uploads the new asset key 100, deletes the old asset 7, and keeps
the email. -/
theorem c10_updateUser_field_policy_witness :
    ∃ nu, (updateUser c10StoreW (some ⟨1, "u", "e", some "old", 2, some 7, "j"⟩)
        { registrationId := .strVal "new", badgeCount := some 3, username := some "z",
          avatar := some ⟨"p", "png"⟩ }).result = .ok nu
      ∧ nu.registrationId = some "new" ∧ nu.badgeCount = 3 ∧ nu.username = "z"
      ∧ nu.avatar = some 100 ∧ nu.email = "e"
      ∧ (updateUser c10StoreW (some ⟨1, "u", "e", some "old", 2, some 7, "j"⟩)
          { registrationId := .strVal "new", badgeCount := some 3, username := some "z",
            avatar := some ⟨"p", "png"⟩ }).store.deletes = [7] := by
  have h := c10_updateUser_field_policy c10StoreW ⟨1, "u", "e", some "old", 2, some 7, "j"⟩
    { registrationId := .strVal "new", badgeCount := some 3, username := some "z",
      avatar := some ⟨"p", "png"⟩ } ⟨1, "z", "e", some "new", 3, some 100, "j"⟩ (by decide)
  obtain ⟨hreg, _, _, _, hbadge, _, husr, _, _, _, hava, _, hemail, _⟩ := h
  refine ⟨⟨1, "z", "e", some "new", 3, some 100, "j"⟩, by decide, ?_, ?_, ?_, ?_, ?_, ?_⟩
  · exact hreg "new" rfl (by decide)
  · exact hbadge 3 rfl
  · exact husr "z" rfl (by decide)
  · exact (hava ⟨"p", "png"⟩ rfl).1
  · exact hemail
  · simpa using (hava ⟨"p", "png"⟩ rfl).2.2

end Chatty
